import Mathlib

/-!
Verification of the Python host wrapper `flagd_evaluator_wasm/__init__.py`
(class `WasmFlagEvaluator`).  The WASM engine itself is a compiled binary,
so it is modelled as an abstract, deterministic function bundle (`Engine`)
that consumes the exact byte strings the host writes into linear memory;
every theorem quantifies over the engine.  Python `dict`s are modelled as
association lists preserving Python's insertion-order semantics, and JSON
values as a tagged union (`JVal`) in which IEEE doubles are modelled as
rationals (no claim below depends on float rounding, only on the type tag
and on `int()` truncation toward zero).
-/

namespace FlagdWasm

/-- JSON value, mirroring what `json.loads` can produce plus Python's
distinction of `bool` from `int` (`isinstance(True, int)` is true in
Python, which the accessor embeddings account for explicitly). -/
inductive JVal where
  | null : JVal
  | bool (b : Bool) : JVal
  | int (n : Int) : JVal
  | double (q : Rat) : JVal
  | str (s : String) : JVal
  | arr (xs : List JVal) : JVal
  | obj (fs : List (String × JVal)) : JVal
deriving Repr, Inhabited, BEq

/-- A Python `dict` with string keys: an association list in insertion
order, keys unique by construction of the operations below. -/
abbrev Dict := List (String × JVal)

/-- `d.get(k)` / `d[k]` lookup: first (and only) binding of `k`. -/
def dictGet (d : Dict) (k : String) : Option JVal :=
  (d.find? (fun p => p.1 == k)).map Prod.snd

/-- `k in d`. -/
def dictContains (d : Dict) (k : String) : Bool :=
  d.any (fun p => p.1 == k)

/-- `d[k] = v`: replace in place when the key exists (keeping its
position, Python dict semantics), otherwise append. -/
def dictSet (d : Dict) (k : String) (v : JVal) : Dict :=
  if dictContains d k then
    d.map (fun p => if p.1 == k then (k, v) else p)
  else
    d ++ [(k, v)]

/-- `d.setdefault(k, v)`. -/
def dictSetdefault (d : Dict) (k : String) (v : JVal) : Dict :=
  if dictContains d k then d else d ++ [(k, v)]

/-- Python truthiness of a JSON value (`if value:`). -/
def truthy : JVal → Bool
  | .null => false
  | .bool b => b
  | .int n => n != 0
  | .double q => q != 0
  | .str s => !s.isEmpty
  | .arr xs => !xs.isEmpty
  | .obj fs => !fs.isEmpty

/-- Truthiness of `d.get(k)` (absent key gives `None`, which is falsy). -/
def truthyOpt : Option JVal → Bool
  | none => false
  | some v => truthy v

/-- Python `x == "lit"` where `x` came from `d.get(k)`: only a string
with the same characters compares equal; `None` and non-strings give
`False`. -/
def pyEqStr : Option JVal → String → Bool
  | some (.str s), t => s == t
  | _, _ => false

/-- Python `isinstance(value, bool)`. -/
def isBoolPy : JVal → Bool
  | .bool _ => true
  | _ => false

/-- Python `isinstance(value, str)`. -/
def isStrPy : JVal → Bool
  | .str _ => true
  | _ => false

/-- Python `isinstance(value, (int, float))`.  NOTE: Python's `bool` is a
subclass of `int`, so a boolean value satisfies this test. -/
def isNumericPy : JVal → Bool
  | .bool _ => true
  | .int _ => true
  | .double _ => true
  | _ => false

/-- Python `int(value)` on a value passing `isinstance(value,(int,float))`:
booleans become 0/1, doubles truncate toward zero. -/
def pyToInt : JVal → Int
  | .bool b => if b then 1 else 0
  | .int n => n
  | .double q => q.num.tdiv (q.den : Int)
  | _ => 0

/-- Python `float(value)` on a value passing the numeric isinstance test. -/
def pyToFloat : JVal → Rat
  | .bool b => if b then 1 else 0
  | .int n => (n : Rat)
  | .double q => q
  | _ => 0

/-- Lower-case hex digit. -/
def hexDigit (n : Nat) : Char :=
  if n < 10 then Char.ofNat (48 + n) else Char.ofNat (87 + n)

/-- Four lower-case hex digits, big-endian, as in Python's `\uXXXX`. -/
def hex4 (n : Nat) : String :=
  String.mk [hexDigit (n / 4096 % 16), hexDigit (n / 256 % 16),
             hexDigit (n / 16 % 16), hexDigit (n % 16)]

/-- One character of Python `json.dumps` output (default `ensure_ascii`):
`"`/`\` escaped, the five short escapes, `\uXXXX` for other controls and
for all characters outside 0x20..0x7E, surrogate pairs beyond the BMP. -/
def escapeJsonChar (c : Char) : String :=
  if c = Char.ofNat 34 then "\\\""
  else if c = Char.ofNat 92 then "\\\\"
  else if c.toNat = 8 then "\\b"
  else if c.toNat = 9 then "\\t"
  else if c.toNat = 10 then "\\n"
  else if c.toNat = 12 then "\\f"
  else if c.toNat = 13 then "\\r"
  else if c.toNat < 32 then "\\u" ++ hex4 c.toNat
  else if c.toNat < 127 then String.mk [c]
  else if c.toNat < 65536 then "\\u" ++ hex4 c.toNat
  else
    "\\u" ++ hex4 (55296 + (c.toNat - 65536) / 1024) ++
    "\\u" ++ hex4 (56320 + (c.toNat - 65536) % 1024)

/-- A JSON string literal as Python `json.dumps` emits it. -/
def dumpJsonStr (s : String) : String :=
  "\"" ++ String.join (s.data.map escapeJsonChar) ++ "\""

/-- Textual form of a double.  Python prints the shortest round-trip
decimal of the IEEE value; since doubles are modelled as rationals here a
deterministic rational rendering stands in for it (no claim depends on
the digits, only on the serialization being a function of the value). -/
def dumpRat (q : Rat) : String :=
  if q.den = 1 then toString q.num ++ ".0"
  else toString q.num ++ "e" ++ toString q.den

mutual

/-- `json.dumps(v, separators=(",", ":")).` -/
def jsonDump : JVal → String
  | .null => "null"
  | .bool true => "true"
  | .bool false => "false"
  | .int n => toString n
  | .double q => dumpRat q
  | .str s => dumpJsonStr s
  | .arr xs => "[" ++ jsonDumpElems xs ++ "]"
  | .obj fs => "\x7b" ++ jsonDumpFields fs ++ "\x7d"

/-- Comma-joined array elements. -/
def jsonDumpElems : List JVal → String
  | [] => ""
  | [v] => jsonDump v
  | v :: rest => jsonDump v ++ "," ++ jsonDumpElems rest

/-- Comma-joined `"key":value` object members. -/
def jsonDumpFields : List (String × JVal) → String
  | [] => ""
  | [(k, v)] => dumpJsonStr k ++ ":" ++ jsonDump v
  | (k, v) :: rest => dumpJsonStr k ++ ":" ++ jsonDump v ++ "," ++ jsonDumpFields rest

end

/-- `_MAX_FLAG_KEY_SIZE`. -/
def MAX_FLAG_KEY_SIZE : Nat := 256

/-- `_MAX_CONTEXT_SIZE`. -/
def MAX_CONTEXT_SIZE : Nat := 1024 * 1024

/-- `_unpack_ptr_len`: unpack a u64 into `(ptr_u32, len_u32)`. -/
def unpackPtrLen (packed : Nat) : Nat × Nat :=
  ((packed >>> 32) &&& 0xFFFFFFFF, packed &&& 0xFFFFFFFF)

/-- Lookup in a host-side cache (`dict.get`), generic in the value type. -/
def assocGet {α : Type} (l : List (String × α)) (k : String) : Option α :=
  (l.find? (fun p => p.1 == k)).map Prod.snd

/-- One iteration of the required-key loop of
`_serialize_filtered_context`: skip the reserved names, copy the key
when the caller's context has it. -/
def filterStep (context : Dict) (acc : Dict) (key : String) : Dict :=
  if key == "targetingKey" || key == "$flagd.flagKey" || key == "$flagd.timestamp" then
    acc
  else
    match dictGet context key with
    | some v => dictSet acc key v
    | none => acc

/-- The dict built by `_serialize_filtered_context` before `json.dumps`:
iterate the required-key set (modelled by its iteration sequence), skip
the reserved names, copy present keys, then force `targetingKey` and
`$flagd`. -/
def filteredContextDict (now : Int) (flagKey : String) (context : Dict)
    (requiredKeys : List String) : Dict :=
  let filtered := requiredKeys.foldl (filterStep context) ([] : Dict)
  let filtered := dictSet filtered "targetingKey"
    ((dictGet context "targetingKey").getD (.str ""))
  dictSet filtered "$flagd"
    (.obj [("flagKey", .str flagKey), ("timestamp", .int now)])

/-- `_serialize_filtered_context` (result as the UTF-8 string that is
encoded into the context buffer). -/
def serializeFilteredContext (now : Int) (flagKey : String) (context : Dict)
    (requiredKeys : List String) : String :=
  jsonDump (.obj (filteredContextDict now flagKey context requiredKeys))

/-- The enriched dict of the full-serialization path of `_evaluate_locked`:
copy the context, `setdefault("targetingKey", "")`, overwrite `$flagd`. -/
def enrichedFullContext (now : Int) (flagKey : String) (context : Dict) : Dict :=
  let enriched := dictSetdefault context "targetingKey" (.str "")
  dictSet enriched "$flagd"
    (.obj [("flagKey", .str flagKey), ("timestamp", .int now)])

/-- Result of the engine's `update_state`, already parsed from JSON; the
three optional maps model both an absent field and a JSON `null` (either
way `result.get(...) or {}` yields an empty dict on the host). -/
structure UpdateResult where
  success : Bool
  error : Option String
  preEvaluated : Option (List (String × Dict))
  requiredContextKeys : Option (List (String × List String))
  flagIndices : Option (List (String × Int))

/-- Host-side mutable state of `WasmFlagEvaluator`: the three caches
populated by `update_state`, whether the optional `evaluate_by_index`
export exists, and the pre-allocated context buffer pointer.  A
required-key set is modelled by its iteration sequence. -/
structure EvalState where
  preEvaluated : List (String × Dict)
  requiredContextKeys : List (String × List String)
  flagIndices : List (String × Int)
  hasEvalByIndex : Bool
  contextBufPtr : Nat

/-- The WASM engine, abstract and deterministic: each evaluate export is
a function of the byte strings the host wrote (plus the pointer/length
pair it is handed), each returning the parsed result dict. -/
structure Engine where
  updateStateRaw : String → UpdateResult
  evalReusable : String → Nat → Nat → String → Dict
  evalByIndex : Int → Nat → Nat → String → Dict

/-- A host-level (transport) failure: distinct from an evaluation
result. -/
inductive HostError where
  | valueError (msg : String)
deriving Repr, BEq, DecidableEq

/-- `_write_to_prealloc`: bounds check against the buffer size (only the
length of the data matters for the model). -/
def writeToPrealloc (bufSize : Nat) (dataLen : Nat) : Except HostError Unit :=
  if dataLen > bufSize then
    .error (.valueError ("data size " ++ toString dataLen ++
      " exceeds buffer size " ++ toString bufSize))
  else
    .ok ()

/-- The `context_ptr/context_len` computation shared by
`_evaluate_reusable` and `_evaluate_by_index`: `(0, 0)` for empty bytes,
otherwise a bounds-checked write into the pre-allocated buffer. -/
def prepareContext (ctxBufPtr : Nat) (ctxBytes : String) :
    Except HostError (Nat × Nat) :=
  if ctxBytes.isEmpty then
    .ok (0, 0)
  else
    match writeToPrealloc MAX_CONTEXT_SIZE ctxBytes.utf8ByteSize with
    | .error e => .error e
    | .ok _ => .ok (ctxBufPtr, ctxBytes.utf8ByteSize)

/-- `_evaluate_reusable`: write the flag key into its buffer (bounds
checked), prepare the context, call the keyed export. -/
def evaluateReusable (eng : Engine) (st : EvalState) (flagKey : String)
    (ctxBytes : String) : Except HostError Dict :=
  match writeToPrealloc MAX_FLAG_KEY_SIZE flagKey.utf8ByteSize with
  | .error e => .error e
  | .ok _ =>
    match prepareContext st.contextBufPtr ctxBytes with
    | .error e => .error e
    | .ok pl => .ok (eng.evalReusable flagKey pl.1 pl.2 ctxBytes)

/-- `_evaluate_by_index`: prepare the context, call the positional
export (no flag-key buffer involved). -/
def evaluateByIndex (eng : Engine) (st : EvalState) (flagIndex : Int)
    (ctxBytes : String) : Except HostError Dict :=
  match prepareContext st.contextBufPtr ctxBytes with
  | .error e => .error e
  | .ok pl => .ok (eng.evalByIndex flagIndex pl.1 pl.2 ctxBytes)

/-- The `context_bytes` value computed by `_evaluate_locked`: empty for
an empty context, else the filtered serialization when a required-key
set is known, else the enriched full serialization. -/
def buildContextBytes (st : EvalState) (now : Int) (flagKey : String)
    (context : Dict) : String :=
  match assocGet st.requiredContextKeys flagKey with
  | some rks =>
    if context.isEmpty then "" else serializeFilteredContext now flagKey context rks
  | none =>
    if context.isEmpty then "" else jsonDump (.obj (enrichedFullContext now flagKey context))

/-- `_evaluate_locked`: pre-evaluated cache fast path, context
serialization, then positional evaluate when an index and the export and
a required-key set all exist, else keyed evaluate. -/
def evaluateLocked (eng : Engine) (st : EvalState) (now : Int)
    (flagKey : String) (context : Dict) : Except HostError Dict :=
  match assocGet st.preEvaluated flagKey with
  | some cached => .ok cached
  | none =>
    let requiredKeys := assocGet st.requiredContextKeys flagKey
    let contextBytes := buildContextBytes st now flagKey context
    let flagIndex := assocGet st.flagIndices flagKey
    if flagIndex.isSome && st.hasEvalByIndex && requiredKeys.isSome then
      evaluateByIndex eng st (flagIndex.getD 0) contextBytes
    else
      evaluateReusable eng st flagKey contextBytes

/-- The shared guard of the typed accessors:
`result.get("errorCode") or result.get("reason") == "ERROR"`. -/
def shouldReturnDefault (result : Dict) : Bool :=
  truthyOpt (dictGet result "errorCode") || pyEqStr (dictGet result "reason") "ERROR"

/-- `evaluate_bool`. -/
def evaluateBool (eng : Engine) (st : EvalState) (now : Int) (flagKey : String)
    (context : Dict) (default : Bool) : Except HostError Bool :=
  match evaluateLocked eng st now flagKey context with
  | .error e => .error e
  | .ok result =>
    if shouldReturnDefault result then
      .ok default
    else
      match dictGet result "value" with
      | some (.bool b) => .ok b
      | _ => .ok default

/-- `evaluate_string`. -/
def evaluateString (eng : Engine) (st : EvalState) (now : Int) (flagKey : String)
    (context : Dict) (default : String) : Except HostError String :=
  match evaluateLocked eng st now flagKey context with
  | .error e => .error e
  | .ok result =>
    if shouldReturnDefault result then
      .ok default
    else
      match dictGet result "value" with
      | some (.str s) => .ok s
      | _ => .ok default

/-- `evaluate_int`: `isinstance(value, (int, float))` admits booleans,
integers and doubles (Python `bool` is an `int`), coerced via `int()`. -/
def evaluateInt (eng : Engine) (st : EvalState) (now : Int) (flagKey : String)
    (context : Dict) (default : Int) : Except HostError Int :=
  match evaluateLocked eng st now flagKey context with
  | .error e => .error e
  | .ok result =>
    if shouldReturnDefault result then
      .ok default
    else
      match dictGet result "value" with
      | some v => if isNumericPy v then .ok (pyToInt v) else .ok default
      | none => .ok default

/-- `evaluate_float`: same isinstance test as `evaluate_int`, coerced
via `float()`. -/
def evaluateFloat (eng : Engine) (st : EvalState) (now : Int) (flagKey : String)
    (context : Dict) (default : Rat) : Except HostError Rat :=
  match evaluateLocked eng st now flagKey context with
  | .error e => .error e
  | .ok result =>
    if shouldReturnDefault result then
      .ok default
    else
      match dictGet result "value" with
      | some v => if isNumericPy v then .ok (pyToFloat v) else .ok default
      | none => .ok default

/-- Cache refresh of `update_state`: each cache becomes the matching map
of the engine result, with an absent/null field becoming empty (Python's
`result.get(...) or {}`); `set(v)` on a required-key list is modelled by
keeping its iteration sequence. -/
def applyUpdateResult (st : EvalState) (r : UpdateResult) : EvalState :=
  { st with
    preEvaluated := r.preEvaluated.getD []
    requiredContextKeys := r.requiredContextKeys.getD []
    flagIndices := r.flagIndices.getD [] }

/-- `update_state`: serialize the config, run the engine, replace all
three caches from the result, return the result. -/
def updateState (eng : Engine) (st : EvalState) (config : JVal) :
    EvalState × UpdateResult :=
  let r := eng.updateStateRaw (jsonDump config)
  (applyUpdateResult st r, r)

/-- One public call, as far as the host caches are concerned. -/
inductive HostOp where
  | update (config : JVal)
  | eval (now : Int) (flagKey : String) (context : Dict)

/-- Effect of a public call on the host caches: `update_state` replaces
them wholesale, `evaluate` (any variant) never writes them. -/
def stepState (eng : Engine) (st : EvalState) : HostOp → EvalState
  | .update config => (updateState eng st config).1
  | .eval _ _ _ => st

/-- The host caches after a sequence of public calls. -/
def runOps (eng : Engine) (st : EvalState) (ops : List HostOp) : EvalState :=
  ops.foldl (stepState eng) st

/-- Whether a public call is an evaluate (of any typed flavour). -/
def isEvalOp : HostOp → Bool
  | .update _ => false
  | .eval _ _ _ => true

/-- The caller's context restricted to the required keys plus
`targetingKey` (the restriction the minimality property speaks about). -/
def restrictContext (context : Dict) (requiredKeys : List String) : Dict :=
  context.filter (fun p => p.1 == "targetingKey" || requiredKeys.contains p.1)

/-- A linear-memory operation performed by the host on a result blob. -/
inductive MemOp where
  | read (ptr len : Nat) : MemOp
  | dealloc (ptr len : Nat) : MemOp
deriving Repr, BEq, DecidableEq

/-- `_read_eval_result` over an abstract linear memory, instrumented
with the transcript of memory operations it performs: unpack the packed
u64, copy the blob out, then `dealloc` it.  This is the shared handler
for the blobs returned by both `evaluate_reusable` (keyed path) and
`evaluate_by_index` (positional path). -/
def readEvalResult (mem : Nat → Nat → String) (packed : Nat) :
    String × List MemOp :=
  let pl := unpackPtrLen packed
  (mem pl.1 pl.2, [MemOp.read pl.1 pl.2, MemOp.dealloc pl.1 pl.2])

/-- The result-blob handling inlined in `update_state` (after the engine
call returns its packed u64): unpack into `(result_ptr, result_len)`,
copy the blob out of linear memory, then `dealloc` it — instrumented
with the same memory-operation transcript as `readEvalResult`. -/
def updateStateBlob (mem : Nat → Nat → String) (packed : Nat) :
    String × List MemOp :=
  let pl := unpackPtrLen packed
  (mem pl.1 pl.2, [MemOp.read pl.1 pl.2, MemOp.dealloc pl.1 pl.2])

/-- An engine answering every evaluate call with a fixed result dict
(used to instantiate theorems at concrete inputs). -/
def constEngine (r : Dict) : Engine where
  updateStateRaw := fun _ => ⟨true, none, some [], some [], some []⟩
  evalReusable := fun _ _ _ _ => r
  evalByIndex := fun _ _ _ _ => r

/-- Host state straight after construction: all caches empty. -/
def freshState : EvalState where
  preEvaluated := []
  requiredContextKeys := []
  flagIndices := []
  hasEvalByIndex := true
  contextBufPtr := 4096

/-- A generic result carrying a non-empty error code. -/
def errResult : Dict :=
  [("value", .null), ("variant", .str ""), ("reason", .str "ERROR"),
   ("errorCode", .str "FLAG_NOT_FOUND"), ("flagMetadata", .obj [])]

/-- The rational 5/2, built by the constructor so that it reduces in the
kernel (stand-in for the JSON double 2.5). -/
def twoPointFive : Rat := ⟨5, 2, by decide, by decide⟩

/-- A successful generic result whose value is the double 2.5. -/
def doubleResult : Dict :=
  [("value", .double twoPointFive), ("variant", .str "half"),
   ("reason", .str "STATIC"), ("errorCode", .str ""), ("flagMetadata", .obj [])]

/-- A result whose reason is ERROR while its errorCode is empty. -/
def reasonOnlyErrResult : Dict :=
  [("value", .bool true), ("variant", .str "on"), ("reason", .str "ERROR"),
   ("errorCode", .str "")]

/-- A 257-byte flag key (one byte past the pre-allocated key buffer). -/
def longFlagKey : String :=
  String.mk (List.replicate 257 (Char.ofNat 97))

/-- A host state whose pre-evaluated cache holds one flag. -/
def cachedState : EvalState :=
  { freshState with preEvaluated := [("cachedFlag", doubleResult)] }

/-- A successful generic result whose value is the boolean true. -/
def boolValueResult : Dict :=
  [("value", .bool true), ("variant", .str "on"), ("reason", .str "STATIC"),
   ("errorCode", .str "")]

/-- A successful generic result whose value is the string "on". -/
def strValueResult : Dict :=
  [("value", .str "on"), ("variant", .str "on"), ("reason", .str "STATIC"),
   ("errorCode", .str "")]

/-- A host state that knows one targeted flag whose rule reads `tier`. -/
def rkState : EvalState :=
  { freshState with requiredContextKeys := [("tflag", ["tier"])] }

/-- A caller context with the required key plus an unrelated key. -/
def witCtx1 : Dict := [("tier", .str "gold"), ("extra", .int 1)]

/-- A second caller context agreeing with the first on `tier` (and on the
absent `targetingKey`) but differing elsewhere. -/
def witCtx2 : Dict := [("tier", .str "gold"), ("other", .bool true)]

/-- An engine whose `update_state` result populates all three maps. -/
def updEngine : Engine where
  updateStateRaw := fun _ =>
    ⟨true, none, some [("sf", strValueResult)], some [("tflag", ["tier"])],
     some [("tflag", 0)]⟩
  evalReusable := fun _ _ _ _ => errResult
  evalByIndex := fun _ _ _ _ => errResult

/-- Whether a memory operation is a `dealloc`. -/
def isDeallocOp : MemOp → Bool
  | .dealloc _ _ => true
  | .read _ _ => false

/-- Unfolding a lookup on a cons cell. -/
theorem dictGet_cons (p : String × JVal) (rest : Dict) (k : String) :
    dictGet (p :: rest) k =
      if (p.1 == k) = true then some p.2 else dictGet rest k := by
  unfold dictGet
  simp only [List.find?_cons]
  cases hp : (p.1 == k) <;> simp

/-- Unfolding a membership test on a cons cell. -/
theorem dictContains_cons (p : String × JVal) (rest : Dict) (k : String) :
    dictContains (p :: rest) k = ((p.1 == k) || dictContains rest k) := by
  unfold dictContains
  rw [List.any_cons]

/-- Replacing the binding of `k` in place yields `k ↦ v`, provided a
binding of `k` exists. -/
theorem dictGet_map_overwrite (d : Dict) (k : String) (v : JVal)
    (h : dictContains d k = true) :
    dictGet (d.map (fun p => if p.1 == k then (k, v) else p)) k = some v := by
  induction d with
  | nil => simp [dictContains] at h
  | cons p rest ih =>
    simp only [List.map_cons]
    by_cases hp : (p.1 == k) = true
    · rw [if_pos hp, dictGet_cons]
      simp
    · have hp2 : (p.1 == k) = false := by simpa using hp
      rw [if_neg hp, dictGet_cons, if_neg hp]
      apply ih
      rw [dictContains_cons, hp2, Bool.false_or] at h
      exact h

/-- In-place replacement of the binding of `k` leaves lookups of other
keys unchanged. -/
theorem dictGet_map_ne (d : Dict) (k k2 : String) (v : JVal) (hne : k2 ≠ k) :
    dictGet (d.map (fun p => if p.1 == k then (k, v) else p)) k2 = dictGet d k2 := by
  induction d with
  | nil => rfl
  | cons p rest ih =>
    simp only [List.map_cons]
    by_cases hp : (p.1 == k) = true
    · have hpk : p.1 = k := by simpa using hp
      have hp2 : (p.1 == k2) = false := by
        simp [hpk]
        exact fun h => hne h.symm
      have hk2 : (k == k2) = false := by
        simp
        exact fun h => hne h.symm
      rw [if_pos hp, dictGet_cons, dictGet_cons, hp2]
      simp only [hk2]
      rw [if_neg (by simp), if_neg (by simp)]
      exact ih
    · rw [if_neg hp, dictGet_cons, dictGet_cons]
      by_cases hq : (p.1 == k2) = true
      · rw [if_pos hq, if_pos hq]
      · rw [if_neg hq, if_neg hq]
        exact ih

/-- Appending a fresh binding of `k` makes lookups of `k` find it,
provided no binding of `k` existed. -/
theorem dictGet_append_last (d : Dict) (k : String) (v : JVal)
    (h : dictContains d k = false) :
    dictGet (d ++ [(k, v)]) k = some v := by
  induction d with
  | nil =>
    rw [List.nil_append, dictGet_cons]
    simp
  | cons p rest ih =>
    rw [dictContains_cons] at h
    rcases Bool.or_eq_false_iff.mp h with ⟨hp, hrest⟩
    rw [List.cons_append, dictGet_cons, hp]
    simp only [Bool.false_eq_true, if_false]
    exact ih hrest

/-- Appending a binding of `k` leaves lookups of other keys unchanged. -/
theorem dictGet_append_ne (d : Dict) (k k2 : String) (v : JVal) (hne : k2 ≠ k) :
    dictGet (d ++ [(k, v)]) k2 = dictGet d k2 := by
  induction d with
  | nil =>
    rw [List.nil_append, dictGet_cons]
    have hk2 : (k == k2) = false := by
      simp
      exact fun h => hne h.symm
    rw [hk2]
    simp only [Bool.false_eq_true, if_false]
  | cons p rest ih =>
    rw [List.cons_append, dictGet_cons, dictGet_cons]
    by_cases hq : (p.1 == k2) = true
    · rw [if_pos hq, if_pos hq]
    · rw [if_neg hq, if_neg hq]
      exact ih

/-- A lookup succeeds exactly when the dict contains the key. -/
theorem dictGet_isSome_eq_contains (d : Dict) (k : String) :
    (dictGet d k).isSome = dictContains d k := by
  induction d with
  | nil => rfl
  | cons p rest ih =>
    rw [dictGet_cons, dictContains_cons]
    by_cases hp : (p.1 == k) = true
    · rw [if_pos hp, hp, Bool.true_or]
      rfl
    · have hp2 : (p.1 == k) = false := by simpa using hp
      rw [if_neg hp, hp2, Bool.false_or]
      exact ih

/-- `d[k] = v` then `d[k]` gives `v`. -/
theorem dictGet_dictSet_self (d : Dict) (k : String) (v : JVal) :
    dictGet (dictSet d k v) k = some v := by
  unfold dictSet
  by_cases hc : dictContains d k = true
  · simpa [hc] using dictGet_map_overwrite d k v hc
  · simp only [Bool.not_eq_true] at hc
    simpa [hc] using dictGet_append_last d k v hc

/-- `d[k] = v` leaves lookups of other keys unchanged. -/
theorem dictGet_dictSet_ne (d : Dict) (k k2 : String) (v : JVal) (hne : k2 ≠ k) :
    dictGet (dictSet d k v) k2 = dictGet d k2 := by
  unfold dictSet
  by_cases hc : dictContains d k = true
  · simpa [hc] using dictGet_map_ne d k k2 v hne
  · simp only [Bool.not_eq_true] at hc
    simpa [hc] using dictGet_append_ne d k k2 v hne

/-- `d.setdefault(k, v)` then `d[k]`: the existing value when present,
else `v`. -/
theorem dictGet_dictSetdefault_self (d : Dict) (k : String) (v : JVal) :
    dictGet (dictSetdefault d k v) k = some ((dictGet d k).getD v) := by
  unfold dictSetdefault
  by_cases hc : dictContains d k = true
  · have hsome : (dictGet d k).isSome = true := by
      rw [dictGet_isSome_eq_contains]; exact hc
    rcases Option.isSome_iff_exists.mp hsome with ⟨w, hw⟩
    simp [hc, hw]
  · simp only [Bool.not_eq_true] at hc
    have hnone : dictGet d k = none := by
      have := dictGet_isSome_eq_contains d k
      rw [hc] at this
      simpa using this
    simp [hc, hnone, dictGet_append_last d k v hc]

/-- All four typed accessors hand back the caller's default whenever the
shared guard (`errorCode` truthy or `reason == "ERROR"`) fires. -/
theorem accessors_return_default (eng : Engine) (st : EvalState) (now : Int)
    (flagKey : String) (context : Dict) (r : Dict)
    (hres : evaluateLocked eng st now flagKey context = .ok r)
    (hguard : shouldReturnDefault r = true) :
    (∀ d : Bool, evaluateBool eng st now flagKey context d = .ok d) ∧
    (∀ d : String, evaluateString eng st now flagKey context d = .ok d) ∧
    (∀ d : Int, evaluateInt eng st now flagKey context d = .ok d) ∧
    (∀ d : Rat, evaluateFloat eng st now flagKey context d = .ok d) := by
  refine ⟨fun d => ?_, fun d => ?_, fun d => ?_, fun d => ?_⟩ <;>
    simp [evaluateBool, evaluateString, evaluateInt, evaluateFloat, hres, hguard]

/-- C1: if the generic evaluation result carries a non-empty `errorCode`,
each typed accessor (`evaluate_bool`, `evaluate_string`, `evaluate_int`,
`evaluate_float`) returns the caller-supplied default unchanged, for
every flag key, context, engine, and default. -/
theorem c1_default_safety (eng : Engine) (st : EvalState) (now : Int)
    (flagKey : String) (context : Dict) (r : Dict) (ec : String)
    (hres : evaluateLocked eng st now flagKey context = .ok r)
    (hec : dictGet r "errorCode" = some (.str ec)) (hne : ec ≠ "") :
    (∀ d : Bool, evaluateBool eng st now flagKey context d = .ok d) ∧
    (∀ d : String, evaluateString eng st now flagKey context d = .ok d) ∧
    (∀ d : Int, evaluateInt eng st now flagKey context d = .ok d) ∧
    (∀ d : Rat, evaluateFloat eng st now flagKey context d = .ok d) := by
  apply accessors_return_default eng st now flagKey context r hres
  simp [shouldReturnDefault, hec, truthyOpt, truthy]
  exact Or.inl (by
    cases hcase : ec.isEmpty with
    | false => rfl
    | true => exact absurd ((String.isEmpty_iff ec).mp hcase) hne)

/-- C1 witness: at an engine whose generic result has
`errorCode = "FLAG_NOT_FOUND"`, each accessor returns its default. -/
theorem c1_default_safety_witness :
    evaluateBool (constEngine errResult) freshState 0 "missing" [] true = .ok true ∧
    evaluateString (constEngine errResult) freshState 0 "missing" [] "dflt" = .ok "dflt" ∧
    evaluateInt (constEngine errResult) freshState 0 "missing" [] 7 = .ok 7 ∧
    evaluateFloat (constEngine errResult) freshState 0 "missing" [] (1 / 2) = .ok (1 / 2) := by
  have h := c1_default_safety (constEngine errResult) freshState 0 "missing" []
    errResult "FLAG_NOT_FOUND" rfl rfl (by decide)
  exact ⟨h.1 true, h.2.1 "dflt", h.2.2.1 7, h.2.2.2 (1 / 2)⟩

/-- C3: a flag key present in the pre-evaluated cache returns exactly the
cached result, for every engine, timestamp, and caller context — the
context has no influence and the engine is never consulted. -/
theorem c3_preevaluated_cache_hit (st : EvalState) (flagKey : String) (cached : Dict)
    (hhit : assocGet st.preEvaluated flagKey = some cached) :
    ∀ (eng : Engine) (now : Int) (context : Dict),
      evaluateLocked eng st now flagKey context = .ok cached := by
  intro eng now context
  simp [evaluateLocked, hhit]

/-- C3 witness: the cached result is returned even though the engine
would answer with a different (error) result, and despite a non-trivial
context. -/
theorem c3_preevaluated_cache_hit_witness :
    evaluateLocked (constEngine errResult) cachedState 5 "cachedFlag"
      [("tier", .str "gold")] = .ok doubleResult :=
  c3_preevaluated_cache_hit cachedState "cachedFlag" doubleResult rfl
    (constEngine errResult) 5 [("tier", .str "gold")]

/-- C2 counterexample: a generic result with empty `errorCode` and a
double value 2.5 is accepted by `evaluate_int` (truncated to 2 instead
of the fallback 99), and a boolean value is accepted by both
`evaluate_int` and `evaluate_float` (coerced to 1) — Python's
`isinstance(value, (int, float))` admits bools and floats, so the claim
that those tags are rejected is false. -/
theorem c2_typed_tag_filtering_counterexample :
    shouldReturnDefault doubleResult = false ∧
    dictGet doubleResult "value" = some (.double twoPointFive) ∧
    evaluateInt (constEngine doubleResult) freshState 0 "f" [] 99 = .ok 2 ∧
    (2 : Int) ≠ 99 ∧
    shouldReturnDefault boolValueResult = false ∧
    dictGet boolValueResult "value" = some (.bool true) ∧
    evaluateInt (constEngine boolValueResult) freshState 0 "g" [] 99 = .ok 1 ∧
    evaluateFloat (constEngine boolValueResult) freshState 0 "g" [] 99 = .ok 1 :=
  ⟨rfl, rfl, rfl, by decide, rfl, rfl, rfl, rfl⟩

/-- C2 (amended): with an error-free generic result, `evaluate_bool`
accepts only boolean values and `evaluate_string` only string values,
each returning the fallback otherwise; `evaluate_int` and
`evaluate_float` return the fallback only for non-numeric values — a
boolean counts as numeric (coerced to 0/1) and a double is accepted by
`evaluate_int` with truncation toward zero. -/
theorem c2_typed_tag_filtering (eng : Engine) (st : EvalState) (now : Int)
    (flagKey : String) (context : Dict) (r : Dict)
    (hres : evaluateLocked eng st now flagKey context = .ok r)
    (hguard : shouldReturnDefault r = false) :
    (∀ v, dictGet r "value" = some v → isBoolPy v = false →
      ∀ d : Bool, evaluateBool eng st now flagKey context d = .ok d) ∧
    (∀ v, dictGet r "value" = some v → isStrPy v = false →
      ∀ d : String, evaluateString eng st now flagKey context d = .ok d) ∧
    (∀ v, dictGet r "value" = some v → isNumericPy v = false →
      (∀ d : Int, evaluateInt eng st now flagKey context d = .ok d) ∧
      (∀ d : Rat, evaluateFloat eng st now flagKey context d = .ok d)) ∧
    (∀ q : Rat, dictGet r "value" = some (.double q) →
      ∀ d : Int, evaluateInt eng st now flagKey context d = .ok (q.num.tdiv q.den)) ∧
    (∀ b : Bool, dictGet r "value" = some (.bool b) →
      (∀ d : Int, evaluateInt eng st now flagKey context d = .ok (if b then 1 else 0)) ∧
      (∀ d : Rat, evaluateFloat eng st now flagKey context d = .ok (if b then 1 else 0))) := by
  refine ⟨?_, ?_, ?_, ?_, ?_⟩
  · intro v hv hb d
    cases v <;> simp_all [evaluateBool, hres, hguard, hv, isBoolPy]
  · intro v hv hs d
    cases v <;> simp_all [evaluateString, hres, hguard, hv, isStrPy]
  · intro v hv hn
    refine ⟨fun d => ?_, fun d => ?_⟩ <;>
      cases v <;> simp_all [evaluateInt, evaluateFloat, hres, hguard, hv, isNumericPy]
  · intro q hq d
    simp [evaluateInt, hres, hguard, hq, isNumericPy, pyToInt]
  · intro b hb
    refine ⟨fun d => ?_, fun d => ?_⟩ <;>
      simp [evaluateInt, evaluateFloat, hres, hguard, hb, isNumericPy, pyToInt, pyToFloat]

/-- C2 (amended) witness: a string value makes `evaluate_bool` and
`evaluate_int` fall back, while a double value is truncated by
`evaluate_int`. -/
theorem c2_typed_tag_filtering_witness :
    evaluateBool (constEngine strValueResult) freshState 0 "f" [] true = .ok true ∧
    evaluateInt (constEngine strValueResult) freshState 0 "f" [] 7 = .ok 7 ∧
    evaluateInt (constEngine doubleResult) freshState 0 "f" [] 7 = .ok 2 := by
  have h1 := c2_typed_tag_filtering (constEngine strValueResult) freshState 0 "f" []
    strValueResult rfl rfl
  have h2 := c2_typed_tag_filtering (constEngine doubleResult) freshState 0 "f" []
    doubleResult rfl rfl
  exact ⟨h1.1 (.str "on") rfl rfl true, (h1.2.2.1 (.str "on") rfl rfl).1 7,
    h2.2.2.2.1 twoPointFive rfl 7⟩

/-- C10: each typed accessor returns the caller-supplied default whenever
the generic result's `reason` equals `"ERROR"`, even when `errorCode` is
empty or absent. -/
theorem c10_reason_error_default (eng : Engine) (st : EvalState) (now : Int)
    (flagKey : String) (context : Dict) (r : Dict)
    (hres : evaluateLocked eng st now flagKey context = .ok r)
    (hreason : dictGet r "reason" = some (.str "ERROR")) :
    (∀ d : Bool, evaluateBool eng st now flagKey context d = .ok d) ∧
    (∀ d : String, evaluateString eng st now flagKey context d = .ok d) ∧
    (∀ d : Int, evaluateInt eng st now flagKey context d = .ok d) ∧
    (∀ d : Rat, evaluateFloat eng st now flagKey context d = .ok d) := by
  apply accessors_return_default eng st now flagKey context r hres
  simp [shouldReturnDefault, hreason, pyEqStr]

/-- C10 witness: a result whose `errorCode` is the empty string but whose
`reason` is `"ERROR"` still forces the caller defaults (here the cached
value is the boolean true, yet `evaluate_bool` answers false). -/
theorem c10_reason_error_default_witness :
    evaluateBool (constEngine reasonOnlyErrResult) freshState 0 "f" [] false = .ok false ∧
    evaluateString (constEngine reasonOnlyErrResult) freshState 0 "f" [] "x" = .ok "x" ∧
    evaluateInt (constEngine reasonOnlyErrResult) freshState 0 "f" [] 3 = .ok 3 ∧
    evaluateFloat (constEngine reasonOnlyErrResult) freshState 0 "f" [] 0 = .ok 0 := by
  have h := c10_reason_error_default (constEngine reasonOnlyErrResult) freshState 0 "f" []
    reasonOnlyErrResult rfl rfl
  exact ⟨h.1 false, h.2.1 "x", h.2.2.1 3, h.2.2.2 0⟩

/-- C5: on both serialization paths the context handed to the engine maps
`$flagd` to exactly the two-field object `{flagKey, timestamp}` —
regardless of any caller-supplied `$flagd`, which is replaced, never
merged — and maps `targetingKey` to the caller's value, or the empty
string when absent. -/
theorem c5_context_enrichment_overwrites (now : Int) (flagKey : String)
    (context : Dict) (rks : List String) :
    dictGet (filteredContextDict now flagKey context rks) "$flagd"
      = some (.obj [("flagKey", .str flagKey), ("timestamp", .int now)]) ∧
    dictGet (filteredContextDict now flagKey context rks) "targetingKey"
      = some ((dictGet context "targetingKey").getD (.str "")) ∧
    dictGet (enrichedFullContext now flagKey context) "$flagd"
      = some (.obj [("flagKey", .str flagKey), ("timestamp", .int now)]) ∧
    dictGet (enrichedFullContext now flagKey context) "targetingKey"
      = some ((dictGet context "targetingKey").getD (.str "")) := by
  refine ⟨?_, ?_, ?_, ?_⟩
  · unfold filteredContextDict
    exact dictGet_dictSet_self ..
  · unfold filteredContextDict
    rw [dictGet_dictSet_ne _ _ _ _ (by decide)]
    exact dictGet_dictSet_self ..
  · unfold enrichedFullContext
    exact dictGet_dictSet_self ..
  · unfold enrichedFullContext
    rw [dictGet_dictSet_ne _ _ _ _ (by decide)]
    exact dictGet_dictSetdefault_self ..

/-- One filtered-serialization step only looks at the context through the
lookup of its own key. -/
theorem filterStep_congr (c1 c2 : Dict) (key : String)
    (h : dictGet c1 key = dictGet c2 key) (acc : Dict) :
    filterStep c1 acc key = filterStep c2 acc key := by
  unfold filterStep
  rw [h]

/-- The whole required-key loop only looks at the context through lookups
of the required keys. -/
theorem foldl_filterStep_congr (c1 c2 : Dict) (rks : List String)
    (h : ∀ k ∈ rks, dictGet c1 k = dictGet c2 k) :
    ∀ acc : Dict, rks.foldl (filterStep c1) acc = rks.foldl (filterStep c2) acc := by
  induction rks with
  | nil => intro acc; rfl
  | cons k rest ih =>
    intro acc
    rw [List.foldl_cons, List.foldl_cons,
      filterStep_congr c1 c2 k (h k (by simp)) acc]
    exact ih (fun k2 hk2 => h k2 (by simp [hk2])) _

/-- The filtered context dict is determined by the context's values on
the required keys and `targetingKey`. -/
theorem filteredContextDict_congr (now : Int) (flagKey : String)
    (c1 c2 : Dict) (rks : List String)
    (hk : ∀ k ∈ rks, dictGet c1 k = dictGet c2 k)
    (ht : dictGet c1 "targetingKey" = dictGet c2 "targetingKey") :
    filteredContextDict now flagKey c1 rks = filteredContextDict now flagKey c2 rks := by
  unfold filteredContextDict
  rw [foldl_filterStep_congr c1 c2 rks hk, ht]

/-- The serialized context bytes are determined by the context's values
on the required keys and `targetingKey`, for non-empty contexts of a
flag with a known required-key set. -/
theorem buildContextBytes_congr (st : EvalState) (now : Int) (flagKey : String)
    (rks : List String) (c1 c2 : Dict)
    (hrk : assocGet st.requiredContextKeys flagKey = some rks)
    (h1 : c1 ≠ []) (h2 : c2 ≠ [])
    (hk : ∀ k ∈ rks, dictGet c1 k = dictGet c2 k)
    (ht : dictGet c1 "targetingKey" = dictGet c2 "targetingKey") :
    buildContextBytes st now flagKey c1 = buildContextBytes st now flagKey c2 := by
  unfold buildContextBytes
  rw [hrk]
  have e1 : c1.isEmpty = false := by cases c1 <;> simp_all
  have e2 : c2.isEmpty = false := by cases c2 <;> simp_all
  simp only [e1, e2, Bool.false_eq_true, if_false]
  unfold serializeFilteredContext
  rw [filteredContextDict_congr now flagKey c1 c2 rks hk ht]

/-- Equal serialized context bytes give equal evaluation outcomes (all
remaining inputs of the pipeline depend on the flag key only). -/
theorem evaluateLocked_ctx_congr (eng : Engine) (st : EvalState) (now : Int)
    (flagKey : String) (c1 c2 : Dict)
    (hb : buildContextBytes st now flagKey c1 = buildContextBytes st now flagKey c2) :
    evaluateLocked eng st now flagKey c1 = evaluateLocked eng st now flagKey c2 := by
  unfold evaluateLocked
  cases assocGet st.preEvaluated flagKey <;> simp [hb]

/-- Restriction keeps lookups of the required keys and `targetingKey`
unchanged. -/
theorem dictGet_restrictContext (context : Dict) (rks : List String) (k : String)
    (hk : k ∈ rks ∨ k = "targetingKey") :
    dictGet (restrictContext context rks) k = dictGet context k := by
  induction context with
  | nil => rfl
  | cons p rest ih =>
    unfold restrictContext at ih ⊢
    rw [List.filter_cons]
    by_cases hp : (p.1 == k) = true
    · have hpk : p.1 = k := by simpa using hp
      have hkeep : (p.1 == "targetingKey" || rks.contains p.1) = true := by
        subst hpk
        rcases hk with h | h
        · simp [List.elem_eq_mem, h]
        · simp [h]
      rw [hkeep]
      simp only [if_true]
      rw [dictGet_cons, dictGet_cons, if_pos hp, if_pos hp]
    · cases hkeep : (p.1 == "targetingKey" || rks.contains p.1) with
      | true =>
        simp only [if_true]
        rw [dictGet_cons, dictGet_cons, if_neg hp, if_neg hp]
        exact ih
      | false =>
        simp only [Bool.false_eq_true, if_false]
        rw [dictGet_cons, if_neg hp]
        exact ih

/-- C4: for a flag with a recorded required-key set, any two non-empty
caller contexts agreeing on the required keys and `targetingKey` produce
the identical serialized context and hence the identical result (for the
same timestamp); moreover evaluating with the context restricted to the
required keys plus `targetingKey` (when non-empty) equals evaluating
with the full context. -/
theorem c4_required_key_minimality (eng : Engine) (st : EvalState) (now : Int)
    (flagKey : String) (rks : List String) (c1 c2 : Dict)
    (hrk : assocGet st.requiredContextKeys flagKey = some rks)
    (h1 : c1 ≠ []) (h2 : c2 ≠ [])
    (hk : ∀ k ∈ rks, dictGet c1 k = dictGet c2 k)
    (ht : dictGet c1 "targetingKey" = dictGet c2 "targetingKey") :
    buildContextBytes st now flagKey c1 = buildContextBytes st now flagKey c2 ∧
    evaluateLocked eng st now flagKey c1 = evaluateLocked eng st now flagKey c2 ∧
    (restrictContext c1 rks ≠ [] →
      evaluateLocked eng st now flagKey (restrictContext c1 rks) =
        evaluateLocked eng st now flagKey c1) := by
  have hb := buildContextBytes_congr st now flagKey rks c1 c2 hrk h1 h2 hk ht
  refine ⟨hb, evaluateLocked_ctx_congr eng st now flagKey c1 c2 hb, fun hr => ?_⟩
  have hbr := buildContextBytes_congr st now flagKey rks
    (restrictContext c1 rks) c1 hrk hr h1
    (fun k hkm => dictGet_restrictContext c1 rks k (Or.inl hkm))
    (dictGet_restrictContext c1 rks "targetingKey" (Or.inr rfl))
  exact evaluateLocked_ctx_congr eng st now flagKey (restrictContext c1 rks) c1 hbr

/-- C4 witness: two contexts sharing only the required key `tier` (and
lacking `targetingKey`) evaluate identically, and restriction to the
required keys is also invariant. -/
theorem c4_required_key_minimality_witness :
    evaluateLocked (constEngine strValueResult) rkState 0 "tflag" witCtx1 =
      evaluateLocked (constEngine strValueResult) rkState 0 "tflag" witCtx2 ∧
    evaluateLocked (constEngine strValueResult) rkState 0 "tflag"
        (restrictContext witCtx1 ["tier"]) =
      evaluateLocked (constEngine strValueResult) rkState 0 "tflag" witCtx1 := by
  have h := c4_required_key_minimality (constEngine strValueResult) rkState 0 "tflag"
    ["tier"] witCtx1 witCtx2 rfl (by simp [witCtx1]) (by simp [witCtx2])
    (fun k hk => by
      rcases List.mem_singleton.mp hk with rfl
      rfl)
    rfl
  exact ⟨h.2.1, h.2.2 (by simp [restrictContext, witCtx1])⟩

/-- Running an op sequence splits over append. -/
theorem runOps_append (eng : Engine) (st : EvalState) (ops1 ops2 : List HostOp) :
    runOps eng st (ops1 ++ ops2) = runOps eng (runOps eng st ops1) ops2 := by
  unfold runOps
  exact List.foldl_append (stepState eng) st ops1 ops2

/-- Evaluations never touch the host caches. -/
theorem runOps_evals_id (eng : Engine) (st : EvalState) (post : List HostOp)
    (hpost : ∀ op ∈ post, isEvalOp op = true) :
    runOps eng st post = st := by
  induction post with
  | nil => rfl
  | cons op rest ih =>
    have hop := hpost op (by simp)
    cases op with
    | update c => simp [isEvalOp] at hop
    | eval n k c =>
      unfold runOps at ih ⊢
      rw [List.foldl_cons]
      exact ih (fun o ho => hpost o (by simp [ho]))

/-- C6: after any `update_state(config)` in any sequence of public calls,
and through any further evaluations, each host cache equals exactly the
corresponding map of that update's engine result (absent/null maps
becoming empty) — no entry of any earlier configuration survives. -/
theorem c6_wholesale_cache_replacement (eng : Engine) (st0 : EvalState)
    (pre : List HostOp) (config : JVal) (post : List HostOp)
    (hpost : ∀ op ∈ post, isEvalOp op = true) :
    (runOps eng st0 (pre ++ HostOp.update config :: post)).preEvaluated =
      (eng.updateStateRaw (jsonDump config)).preEvaluated.getD [] ∧
    (runOps eng st0 (pre ++ HostOp.update config :: post)).requiredContextKeys =
      (eng.updateStateRaw (jsonDump config)).requiredContextKeys.getD [] ∧
    (runOps eng st0 (pre ++ HostOp.update config :: post)).flagIndices =
      (eng.updateStateRaw (jsonDump config)).flagIndices.getD [] := by
  have hsplit : runOps eng st0 (pre ++ HostOp.update config :: post) =
      runOps eng (stepState eng (runOps eng st0 pre) (HostOp.update config)) post := by
    rw [runOps_append]
    unfold runOps
    rw [List.foldl_cons]
  rw [hsplit, runOps_evals_id eng _ post hpost]
  exact ⟨rfl, rfl, rfl⟩

/-- C6 witness: a second `update_state` wipes out the first result's
caches, and an evaluation after it changes nothing. -/
theorem c6_wholesale_cache_replacement_witness :
    (runOps updEngine freshState
        [HostOp.update (.obj []), HostOp.update (.obj [("flags", .obj [])]),
         HostOp.eval 0 "x" []]).preEvaluated = [("sf", strValueResult)] ∧
    (runOps updEngine freshState
        [HostOp.update (.obj []), HostOp.update (.obj [("flags", .obj [])]),
         HostOp.eval 0 "x" []]).requiredContextKeys = [("tflag", ["tier"])] ∧
    (runOps updEngine freshState
        [HostOp.update (.obj []), HostOp.update (.obj [("flags", .obj [])]),
         HostOp.eval 0 "x" []]).flagIndices = [("tflag", 0)] := by
  have h := c6_wholesale_cache_replacement updEngine freshState
    [HostOp.update (.obj [])] (.obj [("flags", .obj [])]) [HostOp.eval 0 "x" []]
    (by
      intro op hop
      rw [List.mem_singleton] at hop
      subst hop
      rfl)
  exact ⟨h.1, h.2.1, h.2.2⟩

/-- C8: the packed-u64 ABI round-trips — unpacking `(ptr <<< 32) ||| len`
restores `(ptr, len)` for all 32-bit values — and every result blob
received as a packed u64, whether by `update_state`'s inline handling or
by the shared `_read_eval_result` of `evaluate_reusable` and
`evaluate_by_index`, is read at exactly that `(ptr, len)` and then
deallocated exactly once, after the copy. -/
theorem c8_packed_ptr_len_roundtrip (ptr len : Nat)
    (hp : ptr < 2 ^ 32) (hl : len < 2 ^ 32) :
    unpackPtrLen ((ptr <<< 32) ||| len) = (ptr, len) ∧
    (∀ mem : Nat → Nat → String,
      (readEvalResult mem ((ptr <<< 32) ||| len)).1 = mem ptr len ∧
      (readEvalResult mem ((ptr <<< 32) ||| len)).2 =
        [MemOp.read ptr len, MemOp.dealloc ptr len] ∧
      (readEvalResult mem ((ptr <<< 32) ||| len)).2.filter isDeallocOp =
        [MemOp.dealloc ptr len]) ∧
    (∀ mem : Nat → Nat → String,
      (updateStateBlob mem ((ptr <<< 32) ||| len)).1 = mem ptr len ∧
      (updateStateBlob mem ((ptr <<< 32) ||| len)).2 =
        [MemOp.read ptr len, MemOp.dealloc ptr len] ∧
      (updateStateBlob mem ((ptr <<< 32) ||| len)).2.filter isDeallocOp =
        [MemOp.dealloc ptr len]) := by
  have hpack : (ptr <<< 32) ||| len = 2 ^ 32 * ptr + len := by
    rw [Nat.shiftLeft_eq, Nat.mul_comm]
    exact (Nat.mul_add_lt_is_or hl ptr).symm
  have hmask : (0xFFFFFFFF : Nat) = 2 ^ 32 - 1 := by norm_num
  have hunpack : unpackPtrLen ((ptr <<< 32) ||| len) = (ptr, len) := by
    unfold unpackPtrLen
    rw [hpack, hmask, Nat.shiftRight_eq_div_pow,
      Nat.and_pow_two_sub_one_eq_mod, Nat.and_pow_two_sub_one_eq_mod]
    congr 1
    · rw [Nat.mul_add_div (by positivity), Nat.div_eq_of_lt hl, Nat.add_zero,
        Nat.mod_eq_of_lt hp]
    · rw [Nat.mul_add_mod, Nat.mod_eq_of_lt hl]
  refine ⟨hunpack, fun mem => ?_, fun mem => ?_⟩
  · unfold readEvalResult
    rw [hunpack]
    exact ⟨rfl, rfl, rfl⟩
  · unfold updateStateBlob
    rw [hunpack]
    exact ⟨rfl, rfl, rfl⟩

/-- C8 witness: the round-trip at `ptr = 3`, `len = 5`, on both the
evaluate-path and the update_state-path blob handlers. -/
theorem c8_packed_ptr_len_roundtrip_witness :
    unpackPtrLen ((3 <<< 32) ||| 5) = (3, 5) ∧
    (readEvalResult (fun _ _ => "blob") ((3 <<< 32) ||| 5)).2 =
      [MemOp.read 3 5, MemOp.dealloc 3 5] ∧
    (updateStateBlob (fun _ _ => "blob") ((3 <<< 32) ||| 5)).2 =
      [MemOp.read 3 5, MemOp.dealloc 3 5] := by
  have h := c8_packed_ptr_len_roundtrip 3 5 (by norm_num) (by norm_num)
  exact ⟨h.1, (h.2.1 (fun _ _ => "blob")).2.1, (h.2.2 (fun _ _ => "blob")).2.1⟩

/-- The bounds check passes for data within the buffer size. -/
theorem writeToPrealloc_ok (bufSize n : Nat) (h : n ≤ bufSize) :
    writeToPrealloc bufSize n = .ok () := by
  unfold writeToPrealloc
  rw [if_neg (Nat.not_lt.mpr h)]

/-- The bounds check raises for oversized data. -/
theorem writeToPrealloc_err (bufSize n : Nat) (h : n > bufSize) :
    ∃ msg, writeToPrealloc bufSize n = .error (.valueError msg) := by
  unfold writeToPrealloc
  rw [if_pos h]
  exact ⟨_, rfl⟩

/-- Context preparation for in-bounds bytes: `(0, 0)` when empty, the
buffer pointer and byte length otherwise. -/
theorem prepareContext_ok (ptr : Nat) (cb : String)
    (h : cb.utf8ByteSize ≤ MAX_CONTEXT_SIZE) :
    prepareContext ptr cb =
      .ok (if cb.isEmpty then (0, 0) else (ptr, cb.utf8ByteSize)) := by
  unfold prepareContext
  by_cases hc : cb.isEmpty = true
  · simp [hc]
  · simp only [Bool.not_eq_true] at hc
    rw [writeToPrealloc_ok _ _ h]
    simp [hc]

/-- Context preparation raises on oversized bytes. -/
theorem prepareContext_err (ptr : Nat) (cb : String)
    (h : cb.utf8ByteSize > MAX_CONTEXT_SIZE) :
    ∃ msg, prepareContext ptr cb = .error (.valueError msg) := by
  have hne : cb.isEmpty = false := by
    cases hc : cb.isEmpty
    · rfl
    · exfalso
      rw [(String.isEmpty_iff cb).mp hc] at h
      exact absurd h (by decide)
  unfold prepareContext
  rw [hne]
  rcases writeToPrealloc_err MAX_CONTEXT_SIZE cb.utf8ByteSize h with ⟨msg, hmsg⟩
  rw [hmsg]
  exact ⟨msg, by simp⟩

/-- C7: with the buffer sizes 256 bytes (flag key) and 1 MiB = 1048576
bytes (context): an evaluation whose flag key exceeds 256 UTF-8 bytes on
the keyed path, or whose serialized context exceeds 1 MiB on either
path, surfaces a host-level `ValueError` instead of a result; within
both bounds the bounds check never fires and an engine result is
returned. -/
theorem c7_prealloc_buffer_limits (eng : Engine) (st : EvalState) (now : Int)
    (flagKey : String) (context : Dict)
    (hmiss : assocGet st.preEvaluated flagKey = none) :
    MAX_FLAG_KEY_SIZE = 256 ∧ MAX_CONTEXT_SIZE = 1048576 ∧
    ((((assocGet st.flagIndices flagKey).isSome && st.hasEvalByIndex &&
        (assocGet st.requiredContextKeys flagKey).isSome) = false) →
      flagKey.utf8ByteSize > 256 →
      ∃ msg, evaluateLocked eng st now flagKey context = .error (.valueError msg)) ∧
    ((buildContextBytes st now flagKey context).utf8ByteSize > 1048576 →
      ∃ msg, evaluateLocked eng st now flagKey context = .error (.valueError msg)) ∧
    (((((assocGet st.flagIndices flagKey).isSome && st.hasEvalByIndex &&
        (assocGet st.requiredContextKeys flagKey).isSome) = false) →
        flagKey.utf8ByteSize ≤ 256) →
      (buildContextBytes st now flagKey context).utf8ByteSize ≤ 1048576 →
      ∃ r, evaluateLocked eng st now flagKey context = .ok r) := by
  refine ⟨rfl, rfl, ?_, ?_, ?_⟩
  · intro hkeyed hbig
    unfold evaluateLocked
    rw [hmiss]
    simp only [hkeyed, Bool.false_eq_true, if_false]
    unfold evaluateReusable
    rcases writeToPrealloc_err MAX_FLAG_KEY_SIZE flagKey.utf8ByteSize hbig with ⟨msg, hmsg⟩
    rw [hmsg]
    exact ⟨msg, rfl⟩
  · intro hbig
    unfold evaluateLocked
    rw [hmiss]
    rcases prepareContext_err st.contextBufPtr _ hbig with ⟨msg, hmsg⟩
    cases hcond : ((assocGet st.flagIndices flagKey).isSome && st.hasEvalByIndex &&
        (assocGet st.requiredContextKeys flagKey).isSome) with
    | true =>
      simp only [hcond, if_true]
      unfold evaluateByIndex
      rw [hmsg]
      exact ⟨msg, rfl⟩
    | false =>
      simp only [hcond, Bool.false_eq_true, if_false]
      unfold evaluateReusable
      cases hkey : writeToPrealloc MAX_FLAG_KEY_SIZE flagKey.utf8ByteSize with
      | error e =>
        cases e with
        | valueError m => exact ⟨m, rfl⟩
      | ok u =>
        rw [hmsg]
        exact ⟨msg, rfl⟩
  · intro hkey hctx
    unfold evaluateLocked
    rw [hmiss]
    cases hcond : ((assocGet st.flagIndices flagKey).isSome && st.hasEvalByIndex &&
        (assocGet st.requiredContextKeys flagKey).isSome) with
    | true =>
      simp only [hcond, if_true]
      unfold evaluateByIndex
      rw [prepareContext_ok st.contextBufPtr _ hctx]
      exact ⟨_, rfl⟩
    | false =>
      simp only [hcond, Bool.false_eq_true, if_false]
      unfold evaluateReusable
      rw [writeToPrealloc_ok MAX_FLAG_KEY_SIZE flagKey.utf8ByteSize (hkey hcond),
        prepareContext_ok st.contextBufPtr _ hctx]
      exact ⟨_, rfl⟩

set_option maxRecDepth 8000 in
/-- C7 witness: a 257-byte flag key raises the bounds check on the keyed
path, while a short key with a small context evaluates normally. -/
theorem c7_prealloc_buffer_limits_witness :
    (∃ msg, evaluateLocked (constEngine strValueResult) freshState 0 longFlagKey []
      = .error (.valueError msg)) ∧
    (∃ r, evaluateLocked (constEngine strValueResult) freshState 0 "ok" []
      = .ok r) := by
  have h1 := c7_prealloc_buffer_limits (constEngine strValueResult) freshState 0
    longFlagKey [] rfl
  have h2 := c7_prealloc_buffer_limits (constEngine strValueResult) freshState 0
    "ok" [] rfl
  exact ⟨h1.2.2.1 rfl (by decide), h2.2.2.2.2 (fun _ => by decide) (by decide)⟩

/-- C9: for a flag key missing from the pre-evaluated cache and an empty
caller context, the serialized context is empty, the transport passes
pointer 0 and length 0 to the engine, and no host-side enrichment
(neither `targetingKey` nor `$flagd`) takes place. -/
theorem c9_empty_context_fast_path (eng : Engine) (st : EvalState) (now : Int)
    (flagKey : String)
    (hmiss : assocGet st.preEvaluated flagKey = none)
    (hkey : flagKey.utf8ByteSize ≤ MAX_FLAG_KEY_SIZE) :
    buildContextBytes st now flagKey [] = "" ∧
    prepareContext st.contextBufPtr "" = .ok (0, 0) ∧
    evaluateLocked eng st now flagKey [] =
      (if ((assocGet st.flagIndices flagKey).isSome && st.hasEvalByIndex &&
            (assocGet st.requiredContextKeys flagKey).isSome) = true
        then .ok (eng.evalByIndex ((assocGet st.flagIndices flagKey).getD 0) 0 0 "")
        else .ok (eng.evalReusable flagKey 0 0 "")) := by
  have hempty : buildContextBytes st now flagKey [] = "" := by
    unfold buildContextBytes
    cases assocGet st.requiredContextKeys flagKey <;> rfl
  refine ⟨hempty, rfl, ?_⟩
  unfold evaluateLocked
  rw [hmiss, hempty]
  cases hcond : ((assocGet st.flagIndices flagKey).isSome && st.hasEvalByIndex &&
      (assocGet st.requiredContextKeys flagKey).isSome) with
  | true =>
    simp only [hcond, if_true]
    rfl
  | false =>
    simp only [hcond, Bool.false_eq_true, if_false]
    unfold evaluateReusable
    rw [writeToPrealloc_ok MAX_FLAG_KEY_SIZE flagKey.utf8ByteSize hkey]
    rfl

/-- C9 witness: the keyed export is reached with pointer 0 and length 0
for an empty caller context. -/
theorem c9_empty_context_fast_path_witness :
    buildContextBytes freshState 0 "plainFlag" [] = "" ∧
    evaluateLocked (constEngine strValueResult) freshState 0 "plainFlag" [] =
      .ok ((constEngine strValueResult).evalReusable "plainFlag" 0 0 "") := by
  have h := c9_empty_context_fast_path (constEngine strValueResult) freshState 0
    "plainFlag" rfl (by decide)
  refine ⟨h.1, ?_⟩
  rw [h.2.2]
  rfl

end FlagdWasm
